import Mathlib

/-
Verification of the curlpad command extraction / validation / execution
pipeline (src/curlpad/commands.py, cli.py, output.py).

The Python code is shallowly embedded: Python strings are Lean `String`s,
`str.strip`/`lstrip`/`rstrip`/`startswith`/`endswith`/`in` are modelled on
the underlying character lists (ASCII whitespace), `shlex.split(_, posix=True)`
is modelled by an explicit state machine, and process spawning is abstracted
by a function argument giving each spawned command's captured result.
`print_error` (output.py) prints, runs `cleanup_temp_files()` and calls
`sys.exit(1)`; it is modelled as an aborting outcome.
-/

/-- Characters stripped by Python `str.strip()` (ASCII whitespace). -/
def isPyWs (c : Char) : Bool :=
  c = ' ' || c = '\t' || c = '\n' || c = '\r' || c = '\x0b' || c = '\x0c'

/-- Model of `str.lstrip()` on character lists. -/
def lstripL (l : List Char) : List Char := l.dropWhile isPyWs

/-- Model of `str.rstrip()` on character lists. -/
def rstripL (l : List Char) : List Char := (l.reverse.dropWhile isPyWs).reverse

/-- Model of `str.strip()` on character lists (right strip after left strip). -/
def stripL (l : List Char) : List Char := rstripL (lstripL l)

/-- Python `s.lstrip()`. -/
def pyLstrip (s : String) : String := ⟨lstripL s.data⟩

/-- Python `s.rstrip()`. -/
def pyRstrip (s : String) : String := ⟨rstripL s.data⟩

/-- Python `s.strip()`. -/
def pyStrip (s : String) : String := ⟨stripL s.data⟩

/-- Python `s.startswith(pre)`. -/
def pyStartsWith (s pre : String) : Bool := pre.data.isPrefixOf s.data

/-- Python `s.endswith(suf)`. -/
def pyEndsWith (s suf : String) : Bool := suf.data.isSuffixOf s.data

/-- Python `s[:-1]` (drop the last character). -/
def strDropLast (s : String) : String := ⟨s.data.dropLast⟩

/-- Substring search on character lists: `needle` occurs inside `hay`
(model of Python `needle in hay`). -/
def infixOfL (needle : List Char) : List Char → Bool
  | [] => needle.isPrefixOf []
  | c :: rest => needle.isPrefixOf (c :: rest) || infixOfL needle rest

/-- Python `pat in s` (substring containment). -/
def containsSubstr (s pat : String) : Bool := infixOfL pat.data s.data

/-- Python `' '.join(parts)`. -/
def joinSp : List String → String
  | [] => ""
  | [p] => p
  | p :: ps => p ++ " " ++ joinSp ps

/-- The single quote character (ASCII 39). -/
def squoteC : Char := Char.ofNat 39

/-- The double quote character. -/
def dquoteC : Char := '"'

/-- The backslash character. -/
def backslashC : Char := '\\'

/- ----------------------------------------------------------------
   shlex.split(cmd, posix=True) — quote-aware POSIX word splitting
   (commands.py line 369 and line 444 with windows=False).
   ---------------------------------------------------------------- -/

/-- Whitespace used by `shlex` as a token separator (`' \t\r\n'`). -/
def shlexWs (c : Char) : Bool := c = ' ' || c = '\t' || c = '\r' || c = '\n'

/-- Lexer states of the POSIX `shlex` word splitter: outside quotes,
after a backslash outside quotes, inside single quotes, inside double
quotes, and after a backslash inside double quotes. -/
inductive SState
  | norm
  | esc
  | squote
  | dquote
  | dqesc
deriving DecidableEq

/-- One pass of the POSIX `shlex` word splitter over the remaining input.
`acc` holds the finished tokens, `tok` the current token's characters and
`seen` whether a token has been started (a quote pair starts a token even
when empty, which is how `shlex` emits empty quoted tokens).  `none`
models `ValueError` (unbalanced quote / dangling escape). -/
def shlexRun : SState → List Char → List String → List Char → Bool → Option (List String)
  | .norm, [], acc, tok, seen => some (if seen then acc ++ [⟨tok⟩] else acc)
  | .norm, c :: rest, acc, tok, seen =>
    if shlexWs c then
      if seen then shlexRun .norm rest (acc ++ [⟨tok⟩]) [] false
      else shlexRun .norm rest acc [] false
    else if c = backslashC then shlexRun .esc rest acc tok seen
    else if c = squoteC then shlexRun .squote rest acc tok true
    else if c = dquoteC then shlexRun .dquote rest acc tok true
    else shlexRun .norm rest acc (tok ++ [c]) true
  | .esc, [], _, _, _ => none
  | .esc, c :: rest, acc, tok, _ => shlexRun .norm rest acc (tok ++ [c]) true
  | .squote, [], _, _, _ => none
  | .squote, c :: rest, acc, tok, seen =>
    if c = squoteC then shlexRun .norm rest acc tok seen
    else shlexRun .squote rest acc (tok ++ [c]) seen
  | .dquote, [], _, _, _ => none
  | .dquote, c :: rest, acc, tok, seen =>
    if c = dquoteC then shlexRun .norm rest acc tok seen
    else if c = backslashC then shlexRun .dqesc rest acc tok seen
    else shlexRun .dquote rest acc (tok ++ [c]) seen
  | .dqesc, [], _, _, _ => none
  | .dqesc, c :: rest, acc, tok, seen =>
    if c = dquoteC || c = backslashC then shlexRun .dquote rest acc (tok ++ [c]) seen
    else shlexRun .dquote rest acc (tok ++ [backslashC, c]) seen

/-- Model of `shlex.split(s, posix=True)`; `none` models the `ValueError`
raised on an unbalanced quote or a trailing escape. -/
def shlexSplit (s : String) : Option (List String) := shlexRun .norm s.data [] [] false

/- ----------------------------------------------------------------
   Flag tables and validate_command (commands.py lines 43-70, 327-418)
   ---------------------------------------------------------------- -/

/-- commands.py line 43: the only permitted leading command token. -/
def _ALLOWED_CMD : String := "curl"

/-- commands.py line 45: blocklist of known dangerous flags. -/
def _BLOCKED_FLAGS : List String :=
  ["--exec", "-e", "--eval", "-K", "--config", "--write-out", "-w"]

/-- commands.py lines 47-68: allowlist of known-safe flags. -/
def _ALLOWED_FLAGS : List String :=
  ["-X", "GET", "POST", "PUT", "DELETE", "PATCH", "HEAD", "OPTIONS",
   "-H", "--header", "-d", "--data", "--data-raw", "--data-binary", "--data-urlencode",
   "--url", "-i", "--include", "-v", "--verbose", "-s", "--silent", "-S", "--show-error",
   "-o", "--output", "-O", "--remote-name", "-L", "--location", "-k", "--insecure",
   "--connect-timeout", "--max-time", "-m", "--max-redirs",
   "-u", "--user", "-x", "--proxy", "--proxy-user",
   "-A", "--user-agent", "-b", "--cookie", "-c", "--cookie-jar",
   "-e", "--referer", "-f", "--fail", "-I", "--head",
   "--compressed", "--digest", "--negotiate", "--ntlm", "--basic",
   "--cert", "--key", "--cacert", "--capath",
   "-4", "-6", "--ipv4", "--ipv6",
   "-g", "--globoff", "-j", "--junk-session-cookies",
   "-1", "--tlsv1", "--tlsv1.0", "--tlsv1.1", "--tlsv1.2", "--tlsv1.3",
   "--ssl", "--ssl-reqd", "--sslv2", "--sslv3",
   "-#", "--progress-bar", "-N", "--no-buffer",
   "--raw", "--tr-encoding", "--no-keepalive", "--no-sessionid",
   "--noproxy", "--local-port", "--interface", "--dns-servers",
   "--keepalive-time", "--no-alpn", "--no-npn",
   "--http1.0", "--http1.1", "--http2", "--http2-prior-knowledge",
   "-0", "--http1.0"]

/-- commands.py line 70: shell metacharacter substrings blocked in the
whole command string. -/
def _DANGEROUS_PATTERNS : List String :=
  ["&&", "||", ";", "|", "$", "`", "$(", "$\x7b", ">", "<", "\n", "\r"]

/-- commands.py line 388: `part.split('=')[0]`, the flag name before the
first literal `=`. -/
def flagName (part : String) : String := ⟨part.data.takeWhile (fun c => !(c = '='))⟩

/-- Validation of one parsed argument (`validate_command`'s loop body,
commands.py lines 386-409): dash tokens must name a flag that is not
blocklisted and is allowlisted; other tokens must be free of the
command-substitution sequences. -/
def argOk (part : String) : Bool :=
  if pyStartsWith part "-" then
    if _BLOCKED_FLAGS.contains (flagName part) then false
    else if _ALLOWED_FLAGS.contains (flagName part) then true
    else false
  else
    if ["`", "$(", "$\x7b"].any (fun p => containsSubstr part p) then false
    else true

/-- Model of `validate_command` (commands.py lines 327-418): strip, reject
empty, reject embedded newlines, reject dangerous metacharacter substrings,
POSIX-tokenize (tokenization failure rejects), require leading `curl`,
then validate each argument. -/
def validate_command (command : String) : Bool :=
  if pyStrip command = "" then false
  else if containsSubstr (pyStrip command) "\n" || containsSubstr (pyStrip command) "\r" then false
  else if _DANGEROUS_PATTERNS.any (fun p => containsSubstr (pyStrip command) p) then false
  else
    match shlexSplit (pyStrip command) with
    | none => false
    | some [] => false
    | some (p0 :: args) => if p0 = _ALLOWED_CMD then args.all argOk else false

/- ----------------------------------------------------------------
   extract_commands (commands.py lines 73-225), modelled on the list of
   lines read from the template file (each with its newline stripped).
   ---------------------------------------------------------------- -/

/-- Line filter of `extract_commands` (commands.py lines 128-135): blank
lines and lines whose left-stripped content starts with `#` are dropped. -/
def keepLine (raw : String) : Bool :=
  !(pyStrip raw == "") && !(pyStartsWith (pyLstrip raw) "#")

/-- Running state of the command coalescer: the finished commands and the
fragments of the command currently being built. -/
structure CoState where
  coalesced : List String
  current : List String
deriving DecidableEq

/-- Model of the nested `flush_current` (commands.py lines 147-169): strip
every fragment, drop empty ones, join with single spaces, append the join
when non-empty, and reset `current`. -/
def flush_current (st : CoState) : CoState :=
  if st.current = [] then { st with current := [] }
  else
    { coalesced :=
        if joinSp ((st.current.map pyStrip).filter (fun p => !(p == ""))) = ""
        then st.coalesced
        else st.coalesced ++ [joinSp ((st.current.map pyStrip).filter (fun p => !(p == "")))],
      current := [] }

/-- One iteration of the extraction loop (commands.py lines 173-217) on a
filtered line: start a new command on a leading-`curl` line (handling a
trailing backslash), otherwise append a continuation and flush when the
line neither ends with a backslash, nor starts with `-`, nor is indented. -/
def processLine (st : CoState) (raw : String) : CoState :=
  if st.current = [] then
    if pyStartsWith (pyLstrip raw) "curl" then
      if pyEndsWith (pyRstrip raw) "\\" then
        { st with current := [pyRstrip (strDropLast (pyRstrip raw))] }
      else
        flush_current { st with current := [pyRstrip raw] }
    else st
  else
    if pyEndsWith (pyRstrip raw) "\\" then
      { st with current := st.current ++ [pyRstrip (strDropLast (pyRstrip raw))] }
    else if pyStartsWith (pyLstrip raw) "-" then
      { st with current := st.current ++ [pyRstrip raw] }
    else if !(raw == pyLstrip raw) then
      { st with current := st.current ++ [pyRstrip raw] }
    else
      flush_current { st with current := st.current ++ [pyRstrip raw] }

/-- Model of `extract_commands` (commands.py lines 73-225): filter out
blank and comment lines, coalesce the rest, and flush the final command. -/
def extract_commands (lines : List String) : List String :=
  (flush_current ((lines.filter keepLine).foldl processLine ⟨[], []⟩)).coalesced

/- ----------------------------------------------------------------
   format_json_with_jq (commands.py lines 228-324).  The regex
   (.*curl.*-d\s*['"])({[^}]*})(['"].*) is modelled by a greedy
   backtracking matcher specialised to sequences of literals,
   single-character classes and greedy character-class stars.
   ---------------------------------------------------------------- -/

/-- An element of the fixed search pattern: a literal, one character from
a class, or a greedy star over a character class. -/
inductive RElem
  | lit : List Char → RElem
  | one : (Char → Bool) → RElem
  | star : (Char → Bool) → RElem

/-- Greedy backtracking for a star element: try the longest number of
consumed characters first, shrinking until the rest of the pattern
matches. -/
def starLoop (f : List Char → Option (List Nat)) (s : List Char) : Nat → Option (Nat × List Nat)
  | 0 => (f s).map (fun ls => (0, ls))
  | k + 1 =>
    match f (s.drop (k + 1)) with
    | some ls => some (k + 1, ls)
    | none => starLoop f s k

/-- Match a pattern-element sequence against a prefix of `s`, returning
the number of characters consumed by each element (greedy stars with
backtracking, exactly the Python `re` semantics for this pattern shape). -/
def matchElems : List RElem → List Char → Option (List Nat)
  | [], _ => some []
  | .lit w :: es, s =>
    if w.isPrefixOf s then (matchElems es (s.drop w.length)).map (fun ls => w.length :: ls)
    else none
  | .one cls :: es, s =>
    match s with
    | [] => none
    | c :: rest => if cls c then (matchElems es rest).map (fun ls => 1 :: ls) else none
  | .star cls :: es, s =>
    match starLoop (matchElems es) s ((s.takeWhile cls).length) with
    | some (k, ls) => some (k :: ls)
    | none => none

/-- Character class `.` of the Python regex (any character but newline). -/
def reDot (c : Char) : Bool := !(c = '\n')

/-- Character class `\s` of the Python regex (whitespace). -/
def reWs (c : Char) : Bool := isPyWs c

/-- Character class `['"]` of the Python regex. -/
def reQuote (c : Char) : Bool := c = squoteC || c = dquoteC

/-- Character class `[^}]` of the Python regex. -/
def reNotCloseBrace (c : Char) : Bool := !(c = '\x7d')

/-- The pattern of commands.py line 272, element by element.  Group 1 is
elements 0-5, group 2 is elements 6-8, group 3 is elements 9-10. -/
def jqElems : List RElem :=
  [.star reDot, .lit "curl".data, .star reDot, .lit "-d".data, .star reWs, .one reQuote,
   .lit ['\x7b'], .star reNotCloseBrace, .lit ['\x7d'],
   .one reQuote, .star reDot]

/-- Scan start positions left to right (the `re.search` strategy),
returning the match's start index and per-element consumed lengths. -/
def reSearchFrom (i : Nat) : List Char → Option (Nat × List Nat)
  | [] =>
    match matchElems jqElems [] with
    | some ls => some (i, ls)
    | none => none
  | c :: rest =>
    match matchElems jqElems (c :: rest) with
    | some ls => some (i, ls)
    | none => reSearchFrom (i + 1) rest

/-- The three captured groups `(before, json_str, after)` of a successful
`re.search` of the commands.py line 272 pattern, or `none`. -/
def jqGroups (line : String) : Option (String × String × String) :=
  match reSearchFrom 0 line.data with
  | none => none
  | some (i, ls) =>
    let g1 := (ls.take 6).sum
    let g2 := ((ls.drop 6).take 3).sum
    let g3 := ((ls.drop 9).take 2).sum
    let rest := line.data.drop i
    some (⟨rest.take g1⟩, ⟨(rest.drop g1).take g2⟩, ⟨((rest.drop g1).drop g2).take g3⟩)

/-- The matched JSON literal (group 2) of a command line, if any. -/
def extractLiteral (line : String) : Option String :=
  (jqGroups line).map (fun g => g.2.1)

/-- Per-command body of the `format_json_with_jq` loop (commands.py lines
262-321): when the pattern matches, pipe the literal through `jq -c .`
(modelled by `jqRun`; `none` is a non-zero exit) and splice the stripped
output back between the captures; on no match or a `jq` failure the
command is kept unchanged. -/
def formatOneCommand (jqRun : String → Option String) (line : String) : String :=
  match jqGroups line with
  | none => line
  | some (before, jsonStr, after) =>
    match jqRun jsonStr with
    | none => line
    | some out => before ++ pyStrip out ++ after

/-- Model of `format_json_with_jq` (commands.py lines 228-324):
`jqAvailable` is `check_command('jq')`; when `jq` is missing the input
list is returned unchanged, otherwise each command is processed in
order. -/
def format_json_with_jq (jqAvailable : Bool) (jqRun : String → Option String)
    (commands : List String) : List String :=
  if !jqAvailable then commands
  else commands.map (formatOneCommand jqRun)

/- ----------------------------------------------------------------
   Execution (commands.py lines 421-566, cli.py lines 173-355,
   output.py lines 34-55).  Spawning `subprocess.run(parts, ...)` is
   abstracted by `exec : List String → ExecResult`, the captured result
   of running an argument vector.  `print_error` prints to stderr, calls
   `cleanup_temp_files()` and then `sys.exit(1)`; `SystemExit` is not
   caught by `run_command`'s `except Exception`, so it terminates the
   whole process.
   ---------------------------------------------------------------- -/

/-- Captured result of one spawned subprocess (`subprocess.CompletedProcess`
with `capture_output=True, text=True`). -/
structure ExecResult where
  stdout : String
  stderr : String
  returncode : Int
deriving DecidableEq

/-- Possible results of `run_curl_command` (commands.py lines 421-453) as
seen by its caller: `invalid` is the `ValueError` on validation failure,
`execFail` the `RuntimeError` wrapping a parse/spawn failure, and `ok`
carries the completed process. -/
inductive RunCurlResult
  | invalid
  | execFail
  | ok (r : ExecResult)
deriving DecidableEq

/-- Model of `run_curl_command(command, windows=False)` (commands.py lines
421-453): re-validate, POSIX-tokenize, and spawn the argument vector
without any shell. -/
def run_curl_command (exec : List String → ExecResult) (command : String) : RunCurlResult :=
  if validate_command command then
    match shlexSplit command with
    | none => .execFail
    | some parts => .ok (exec parts)
  else .invalid

/-- Model of `run_command` (commands.py lines 456-566), returning whether
the process survives to the next command of the batch.  A `ValueError` /
`RuntimeError` from `run_curl_command` and a non-zero exit status all
reach `print_error`, whose `sys.exit(1)` is a `SystemExit` that escapes
the `except Exception` handler and terminates the process. -/
def run_command (exec : List String → ExecResult) (command : String) : Bool :=
  match run_curl_command exec command with
  | .invalid => false
  | .execFail => false
  | .ok r => decide (r.returncode = 0)

/-- Outcome of the per-command execution loop of `main` (cli.py lines
350-355): the commands for which a subprocess was actually spawned, and
the process exit status (`1` when `print_error` aborted the run). -/
structure BatchResult where
  executed : List String
  exitCode : Nat
deriving DecidableEq

/-- The execution loop of `main` (cli.py lines 350-355): run each command
with `run_command`; a command on which `print_error` fires (validation
failure, spawn failure, or non-zero exit status) terminates the process,
leaving the remaining commands unexecuted. -/
def runBatch (exec : List String → ExecResult) : List String → BatchResult
  | [] => ⟨[], 0⟩
  | c :: rest =>
    match run_curl_command exec c with
    | .invalid => ⟨[], 1⟩
    | .execFail => ⟨[], 1⟩
    | .ok r =>
      if r.returncode = 0 then
        ⟨c :: (runBatch exec rest).executed, (runBatch exec rest).exitCode⟩
      else ⟨[c], 1⟩

/-- The validation loop of `main` (cli.py lines 311-317): commands are
validated in order and the first failure hits `print_error`, which
terminates the process. -/
def validateAllPhase : List String → Bool
  | [] => true
  | c :: rest => if validate_command c then validateAllPhase rest else false

/-- Outcome of a whole `main` run after the editor closes (cli.py lines
287-355): final process exit status, whether `cleanup_temp_files` ran
(it always does: `print_error` invokes it explicitly and `atexit`
registration in utils.py covers every normal exit), and the commands for
which a subprocess was spawned. -/
structure MainOutcome where
  exitCode : Nat
  cleanupCalled : Bool
  executed : List String
deriving DecidableEq

/-- Model of `main` from extraction onward (cli.py lines 287-355):
extract, bail out on an empty batch, format JSON, validate every command
(aborting via `print_error` on the first failure, before anything runs),
gate on user confirmation, then execute the batch. -/
def mainRun (jqAvailable : Bool) (jqRun : String → Option String) (confirm : Bool)
    (exec : List String → ExecResult) (lines : List String) : MainOutcome :=
  if extract_commands lines = [] then ⟨0, true, []⟩
  else
    if validateAllPhase (format_json_with_jq jqAvailable jqRun (extract_commands lines)) then
      if confirm then
        ⟨(runBatch exec (format_json_with_jq jqAvailable jqRun (extract_commands lines))).exitCode,
          true,
          (runBatch exec (format_json_with_jq jqAvailable jqRun (extract_commands lines))).executed⟩
      else ⟨0, true, []⟩
    else ⟨1, true, []⟩

/- ----------------------------------------------------------------
   Helper lemmas about the Python string-operation models.
   ---------------------------------------------------------------- -/

/-- A character that fails the predicate survives `dropWhile`. -/
theorem mem_dropWhile_of_not {p : Char → Bool} {c : Char} {l : List Char}
    (hm : c ∈ l) (hc : p c = false) : c ∈ l.dropWhile p := by
  induction l with
  | nil => cases hm
  | cons a rest ih =>
    rw [List.dropWhile_cons]
    by_cases ha : p a = true
    · rcases List.mem_cons.mp hm with h | h
      · subst h; rw [hc] at ha; cases ha
      · simpa [ha] using ih h
    · simp only [Bool.not_eq_true] at ha
      simpa [ha] using hm

/-- A non-whitespace character of `l` survives `stripL`. -/
theorem mem_stripL {c : Char} {l : List Char}
    (hm : c ∈ l) (hc : isPyWs c = false) : c ∈ stripL l := by
  unfold stripL rstripL lstripL
  rw [List.mem_reverse]
  apply mem_dropWhile_of_not _ hc
  rw [List.mem_reverse]
  exact mem_dropWhile_of_not hm hc

/-- Single-character substring search is membership. -/
theorem infixOfL_singleton {c : Char} {l : List Char} :
    infixOfL [c] l = true ↔ c ∈ l := by
  induction l with
  | nil => simp [infixOfL, List.isPrefixOf]
  | cons a rest ih =>
    simp [infixOfL, List.isPrefixOf, ih, Bool.or_eq_true, beq_iff_eq]

/-- The head of a found substring is a member of the haystack. -/
theorem mem_of_infixOfL_cons {c : Char} {cs l : List Char}
    (h : infixOfL (c :: cs) l = true) : c ∈ l := by
  induction l with
  | nil => simp [infixOfL, List.isPrefixOf] at h
  | cons a rest ih =>
    simp only [infixOfL, Bool.or_eq_true] at h
    rcases h with h | h
    · simp only [List.isPrefixOf, Bool.and_eq_true, beq_iff_eq] at h
      exact List.mem_cons.mpr (Or.inl h.1)
    · exact List.mem_cons.mpr (Or.inr (ih h))

/-- The head left after `dropWhile` fails the predicate. -/
theorem dropWhile_head_not {p : Char → Bool} {l rest : List Char} {b : Char}
    (h : l.dropWhile p = b :: rest) : p b = false := by
  induction l with
  | nil => simp at h
  | cons a t ih =>
    rw [List.dropWhile_cons] at h
    by_cases ha : p a = true
    · exact ih (by simpa [ha] using h)
    · simp only [Bool.not_eq_true] at ha
      rw [if_neg (by simp [ha])] at h
      cases h
      exact ha

/-- `dropWhile` is idempotent. -/
theorem dropWhile_idem {p : Char → Bool} {l : List Char} :
    (l.dropWhile p).dropWhile p = l.dropWhile p := by
  cases h : l.dropWhile p with
  | nil => rfl
  | cons b rest => rw [List.dropWhile_cons, if_neg (by simp [dropWhile_head_not h])]

/-- Right-stripping commutes with prepending one non-whitespace character. -/
theorem rstripL_cons_of_not {b : Char} (hb : isPyWs b = false) (t : List Char) :
    rstripL (b :: t) = b :: rstripL t := by
  show ((b :: t).reverse.dropWhile isPyWs).reverse = b :: rstripL t
  rw [show (b :: t).reverse = t.reverse ++ [b] from by simp, List.dropWhile_append]
  by_cases h : (t.reverse.dropWhile isPyWs).isEmpty = true
  · rw [if_pos h]
    have ht : rstripL t = [] := by
      unfold rstripL
      rw [List.isEmpty_iff] at h
      simp [h]
    simp [List.dropWhile_cons, hb, ht]
  · rw [if_neg h]
    unfold rstripL
    simp

/-- Right-stripping a list whose second part has a non-whitespace character
only strips inside the second part. -/
theorem rstripL_append_of_not_all_ws {a b : List Char}
    (h : ∃ x ∈ b, isPyWs x = false) : rstripL (a ++ b) = a ++ rstripL b := by
  unfold rstripL
  rw [List.reverse_append, List.dropWhile_append]
  have hne : ¬ (b.reverse.dropWhile isPyWs).isEmpty = true := by
    rw [List.isEmpty_iff, List.dropWhile_eq_nil_iff]
    rcases h with ⟨x, hx, hxw⟩
    intro hall
    have := hall x (List.mem_reverse.mpr hx)
    rw [hxw] at this; cases this
  rw [if_neg hne]
  simp

/-- Right-stripping swallows an all-whitespace tail. -/
theorem rstripL_append_all_ws {a t : List Char}
    (h : ∀ x ∈ t, isPyWs x = true) : rstripL (a ++ t) = rstripL a := by
  unfold rstripL
  rw [List.reverse_append, List.dropWhile_append]
  have he : (t.reverse.dropWhile isPyWs).isEmpty = true := by
    rw [List.isEmpty_iff, List.dropWhile_eq_nil_iff]
    intro x hx
    exact h x (List.mem_reverse.mp hx)
  rw [if_pos he]

/-- Left-stripping swallows an all-whitespace head. -/
theorem lstripL_append_all_ws {a b : List Char}
    (h : ∀ x ∈ a, isPyWs x = true) : lstripL (a ++ b) = lstripL b := by
  unfold lstripL
  rw [List.dropWhile_append]
  have he : (a.dropWhile isPyWs).isEmpty = true := by
    rw [List.isEmpty_iff, List.dropWhile_eq_nil_iff]
    exact h
  rw [if_pos he]

/-- Left-stripping keeps a list whose head is not whitespace. -/
theorem lstripL_cons_of_not {c : Char} (hc : isPyWs c = false) (t : List Char) :
    lstripL (c :: t) = c :: t := by
  unfold lstripL
  rw [List.dropWhile_cons, if_neg (by simp [hc])]

/-- An all-whitespace list right-strips to nothing. -/
theorem rstripL_eq_nil_all_ws {l : List Char}
    (h : ∀ x ∈ l, isPyWs x = true) : rstripL l = [] := by
  unfold rstripL
  have : l.reverse.dropWhile isPyWs = [] := by
    rw [List.dropWhile_eq_nil_iff]
    intro x hx
    exact h x (List.mem_reverse.mp hx)
  simp [this]

/-- Left and right stripping commute. -/
theorem lstripL_rstripL_comm (l : List Char) :
    lstripL (rstripL l) = rstripL (lstripL l) := by
  have hdec := List.takeWhile_append_dropWhile isPyWs l
  cases hB : l.dropWhile isPyWs with
  | nil =>
    have hall : ∀ x ∈ l, isPyWs x = true := List.dropWhile_eq_nil_iff.mp hB
    rw [rstripL_eq_nil_all_ws hall]
    show lstripL [] = rstripL (lstripL l)
    unfold lstripL
    rw [hB]
    rfl
  | cons b B' =>
    have hb : isPyWs b = false := dropWhile_head_not hB
    have hA : ∀ x ∈ l.takeWhile isPyWs, isPyWs x = true := fun x hx => List.mem_takeWhile_imp hx
    have hl : l = l.takeWhile isPyWs ++ (b :: B') := by rw [← hB, hdec]
    have hr : rstripL l = l.takeWhile isPyWs ++ (b :: rstripL B') := by
      conv_lhs => rw [hl]
      rw [rstripL_append_of_not_all_ws ⟨b, List.mem_cons_self b B', hb⟩,
        rstripL_cons_of_not hb]
    rw [hr, lstripL_append_all_ws hA, lstripL_cons_of_not hb]
    show b :: rstripL B' = rstripL (lstripL l)
    unfold lstripL
    rw [hB, rstripL_cons_of_not hb]

/-- Right-stripping is idempotent. -/
theorem rstripL_idem (l : List Char) : rstripL (rstripL l) = rstripL l := by
  unfold rstripL
  rw [List.reverse_reverse, dropWhile_idem]

/-- Stripping an already right-stripped list strips the original. -/
theorem stripL_rstripL (l : List Char) : stripL (rstripL l) = stripL l := by
  unfold stripL
  rw [lstripL_rstripL_comm, rstripL_idem, ← lstripL_rstripL_comm, lstripL_rstripL_comm]

/- ----------------------------------------------------------------
   The leading-"curl" invariant of the coalescer.
   ---------------------------------------------------------------- -/

/-- Right-stripping a list that begins with the four non-whitespace
characters of `curl` keeps that prefix. -/
theorem curl_prefix_rstripL (t : List Char) :
    "curl".data <+: rstripL ("curl".data ++ t) := by
  unfold rstripL
  rw [List.reverse_append, List.dropWhile_append]
  by_cases h : (t.reverse.dropWhile isPyWs).isEmpty = true
  · rw [if_pos h]
    have hc : "curl".data.reverse.dropWhile isPyWs = "curl".data.reverse := by decide
    rw [hc, List.reverse_reverse]
  · rw [if_neg h]
    rw [List.reverse_append, List.reverse_reverse]
    exact List.prefix_append _ _

/-- If the left strip of a line starts with `curl` so does its full strip. -/
theorem curl_prefix_stripL_of_lstripL {l : List Char}
    (h : "curl".data <+: lstripL l) : "curl".data <+: stripL l := by
  rcases h with ⟨t, ht⟩
  unfold stripL
  rw [← ht]
  exact curl_prefix_rstripL t

/-- If the left strip of a line starts with `curl` so does the left strip
of its right strip. -/
theorem curl_prefix_lstripL_rstripL {l : List Char}
    (h : "curl".data <+: lstripL l) : "curl".data <+: lstripL (rstripL l) := by
  rcases h with ⟨t, ht⟩
  rw [lstripL_rstripL_comm, ← ht]
  exact curl_prefix_rstripL t

/-- A line whose left strip starts with `curl` is whitespace padding
followed by `curl` and a tail. -/
theorem curl_line_decomp {l : List Char} (h : "curl".data <+: lstripL l) :
    ∃ A t, l = A ++ "curl".data ++ t ∧ (∀ x ∈ A, isPyWs x = true) := by
  rcases h with ⟨t, ht⟩
  refine ⟨l.takeWhile isPyWs, t, ?_, fun x hx => List.mem_takeWhile_imp hx⟩
  conv_lhs => rw [← List.takeWhile_append_dropWhile isPyWs l]
  rw [List.append_assoc]
  congr 1
  exact ht.symm

/-- Dropping a final backslash of a `curl` line keeps the `curl` prefix
of its strip: the backslash sits strictly to the right of `curl`. -/
theorem curl_prefix_stripL_dropLast {l : List Char}
    (h : "curl".data <+: lstripL l) (hbs : ['\\'] <:+ l) :
    "curl".data <+: stripL l.dropLast := by
  rcases curl_line_decomp h with ⟨A, t, hl, hA⟩
  have ht : t ≠ [] := by
    intro h0
    subst h0
    rcases hbs with ⟨ys, hys⟩
    have h1 : l.getLast? = some '\\' := by rw [← hys]; exact List.getLast?_concat _
    have h2 : l.getLast? = some 'l' := by
      rw [hl, List.append_nil,
        show "curl".data = "cur".data ++ ['l'] from rfl, ← List.append_assoc]
      exact List.getLast?_concat _
    rw [h1] at h2
    cases h2
  have hdl : l.dropLast = A ++ ("curl".data ++ t.dropLast) := by
    rw [hl, List.append_assoc,
      List.dropLast_append_of_ne_nil _ (show "curl".data ++ t ≠ [] by simp),
      List.dropLast_append_of_ne_nil _ ht]
  rw [hdl]
  unfold stripL
  rw [lstripL_append_all_ws hA]
  have hc : lstripL ("curl".data ++ t.dropLast) = "curl".data ++ t.dropLast := by
    show lstripL ('c' :: ("url".data ++ t.dropLast)) = _
    rw [lstripL_cons_of_not (by decide)]
    rfl
  rw [hc]
  exact curl_prefix_rstripL t.dropLast

/-- `pyStrip` after `pyRstrip` is `pyStrip`. -/
theorem pyStrip_pyRstrip (s : String) : pyStrip (pyRstrip s) = pyStrip s := by
  unfold pyStrip pyRstrip
  exact congrArg String.mk (stripL_rstripL s.data)

/-- The invariant carried through the coalescer: every finished command
starts with `curl`, and the first fragment of the in-progress command
strips to a string starting with `curl`. -/
def CoInv (st : CoState) : Prop :=
  (∀ c ∈ st.coalesced, "curl".data <+: c.data) ∧
  (∀ f t, st.current = f :: t → "curl".data <+: (pyStrip f).data)

/-- A join of a fragment list headed by `p` keeps `p` as a prefix. -/
theorem joinSp_head_starts (p : String) (ps : List String) :
    p.data <+: (joinSp (p :: ps)).data := by
  cases ps with
  | nil => exact List.prefix_refl _
  | cons q qs =>
    show p.data <+: (p ++ " " ++ joinSp (q :: qs)).data
    rw [String.data_append, String.data_append, List.append_assoc]
    exact List.prefix_append _ _

/-- `flush_current` preserves the coalescer invariant. -/
theorem flush_current_inv {st : CoState} (h : CoInv st) : CoInv (flush_current st) := by
  obtain ⟨h1, h2⟩ := h
  unfold flush_current
  by_cases hc : st.current = []
  · rw [if_pos hc]
    exact ⟨h1, fun f t hft => by cases hft⟩
  · rw [if_neg hc]
    cases hcur : st.current with
    | nil => exact absurd hcur hc
    | cons f rest =>
      have hf : "curl".data <+: (pyStrip f).data := h2 f rest hcur
      have hfne : (pyStrip f == "") = false := by
        rw [beq_eq_false_iff_ne]
        intro h0
        rw [h0] at hf
        rcases hf with ⟨u, hu⟩
        cases hu
      have hfilter : (((f :: rest).map pyStrip).filter (fun p => !(p == ""))) =
          pyStrip f :: ((rest.map pyStrip).filter (fun p => !(p == ""))) := by
        rw [List.map_cons, List.filter_cons, if_pos (by rw [hfne]; rfl)]
      have hjoin : "curl".data <+:
          (joinSp (((f :: rest).map pyStrip).filter (fun p => !(p == "")))).data := by
        rw [hfilter]
        exact hf.trans (joinSp_head_starts _ _)
      have hjne : ¬ (joinSp (((f :: rest).map pyStrip).filter (fun p => !(p == "")))) = "" := by
        intro h0
        rw [h0] at hjoin
        rcases hjoin with ⟨u, hu⟩
        cases hu
      constructor
      · intro c hcmem
        simp only [if_neg hjne] at hcmem
        rcases List.mem_append.mp hcmem with hold | hnew
        · exact h1 c hold
        · rcases List.mem_singleton.mp hnew with rfl
          exact hjoin
      · intro f' t' hft'
        cases hft'

/-- `processLine` preserves the coalescer invariant. -/
theorem processLine_inv {st : CoState} (raw : String) (h : CoInv st) :
    CoInv (processLine st raw) := by
  obtain ⟨h1, h2⟩ := h
  unfold processLine
  by_cases hc : st.current = []
  · rw [if_pos hc]
    by_cases hcurl : pyStartsWith (pyLstrip raw) "curl" = true
    · rw [if_pos hcurl]
      have hpre : "curl".data <+: lstripL raw.data := List.isPrefixOf_iff_prefix.mp hcurl
      by_cases hbs : pyEndsWith (pyRstrip raw) "\\" = true
      · rw [if_pos hbs]
        refine ⟨h1, ?_⟩
        intro f t hft
        rcases List.cons_eq_cons.mp hft.symm with ⟨hf, _⟩
        subst hf
        rw [pyStrip_pyRstrip]
        show "curl".data <+: stripL (strDropLast (pyRstrip raw)).data
        have hsuf : ['\\'] <:+ rstripL raw.data :=
          List.isSuffixOf_iff_suffix.mp hbs
        exact curl_prefix_stripL_dropLast (curl_prefix_lstripL_rstripL hpre) hsuf
      · rw [if_neg hbs]
        apply flush_current_inv
        refine ⟨h1, ?_⟩
        intro f t hft
        rcases List.cons_eq_cons.mp hft.symm with ⟨hf, _⟩
        subst hf
        rw [pyStrip_pyRstrip]
        exact curl_prefix_stripL_of_lstripL hpre
    · rw [if_neg hcurl]
      exact ⟨h1, h2⟩
  · rw [if_neg hc]
    cases hcur : st.current with
    | nil => exact absurd hcur hc
    | cons f rest =>
      have hhead : ∀ (u f' : String) (t' : List String),
          f :: (rest ++ [u]) = f' :: t' → "curl".data <+: (pyStrip f').data := by
        intro u f' t' hft'
        rcases List.cons_eq_cons.mp hft' with ⟨hf, _⟩
        subst hf
        exact h2 f rest hcur
      by_cases hbs : pyEndsWith (pyRstrip raw) "\\" = true
      · rw [if_pos hbs]
        exact ⟨h1, fun f' t' h => hhead _ f' t' h⟩
      · rw [if_neg hbs]
        by_cases hdash : pyStartsWith (pyLstrip raw) "-" = true
        · rw [if_pos hdash]
          exact ⟨h1, fun f' t' h => hhead _ f' t' h⟩
        · rw [if_neg hdash]
          by_cases hind : (!(raw == pyLstrip raw)) = true
          · rw [if_pos hind]
            exact ⟨h1, fun f' t' h => hhead _ f' t' h⟩
          · rw [if_neg hind]
            exact flush_current_inv ⟨h1, fun f' t' h => hhead _ f' t' h⟩

/-- Folding `processLine` preserves the coalescer invariant. -/
theorem foldl_processLine_inv (ls : List String) :
    ∀ st : CoState, CoInv st → CoInv (ls.foldl processLine st) := by
  induction ls with
  | nil => intro st h; exact h
  | cons a rest ih =>
    intro st h
    rw [List.foldl_cons]
    exact ih _ (processLine_inv a h)

/-- Every command produced by `extract_commands` starts with `curl`
as a plain string prefix. -/
theorem extract_commands_curl_prefix (lines : List String) :
    ∀ c ∈ extract_commands lines, pyStartsWith c "curl" = true := by
  intro c hmem
  unfold extract_commands at hmem
  have hinv : CoInv ⟨[], []⟩ := by
    constructor
    · intro c h
      cases h
    · intro f t h
      cases h
  have hfold := foldl_processLine_inv (lines.filter keepLine) _ hinv
  have hfin := flush_current_inv hfold
  exact List.isPrefixOf_iff_prefix.mpr (hfin.1 c hmem)

/- ----------------------------------------------------------------
   Characterization lemmas for validate_command.
   ---------------------------------------------------------------- -/

/-- A command whose stripped form still contains a dangerous pattern is
rejected, whatever else it contains. -/
theorem validate_false_of_danger {cmd : String}
    (h : _DANGEROUS_PATTERNS.any (fun p => containsSubstr (pyStrip cmd) p) = true) :
    validate_command cmd = false := by
  unfold validate_command
  by_cases h1 : pyStrip cmd = ""
  · rw [if_pos h1]
  · rw [if_neg h1]
    by_cases h2 : (containsSubstr (pyStrip cmd) "\n" || containsSubstr (pyStrip cmd) "\r") = true
    · rw [if_pos h2]
    · rw [if_neg h2, if_pos h]

/-- A command on which POSIX word-splitting fails is rejected. -/
theorem validate_false_of_shlex_none {cmd : String}
    (h : shlexSplit (pyStrip cmd) = none) : validate_command cmd = false := by
  unfold validate_command
  by_cases h1 : pyStrip cmd = ""
  · rw [if_pos h1]
  · rw [if_neg h1]
    by_cases h2 : (containsSubstr (pyStrip cmd) "\n" || containsSubstr (pyStrip cmd) "\r") = true
    · rw [if_pos h2]
    · rw [if_neg h2]
      by_cases h3 : _DANGEROUS_PATTERNS.any (fun p => containsSubstr (pyStrip cmd) p) = true
      · rw [if_pos h3]
      · rw [if_neg h3, h]

/-- What acceptance means: the stripped command tokenizes, the first token
is `curl`, and every following token passes `argOk`. -/
theorem validate_true_elim {cmd : String} (h : validate_command cmd = true) :
    ∃ args, shlexSplit (pyStrip cmd) = some ("curl" :: args) ∧ args.all argOk = true := by
  unfold validate_command at h
  by_cases h1 : pyStrip cmd = ""
  · rw [if_pos h1] at h; cases h
  · rw [if_neg h1] at h
    by_cases h2 : (containsSubstr (pyStrip cmd) "\n" || containsSubstr (pyStrip cmd) "\r") = true
    · rw [if_pos h2] at h; cases h
    · rw [if_neg h2] at h
      by_cases h3 : _DANGEROUS_PATTERNS.any (fun p => containsSubstr (pyStrip cmd) p) = true
      · rw [if_pos h3] at h; cases h
      · rw [if_neg h3] at h
        cases hs : shlexSplit (pyStrip cmd) with
        | none => rw [hs] at h; cases h
        | some parts =>
          rw [hs] at h
          cases parts with
          | nil => cases h
          | cons p0 args =>
            have h' : (if p0 = _ALLOWED_CMD then args.all argOk else false) = true := h
            by_cases hp : p0 = _ALLOWED_CMD
            · rw [if_pos hp] at h'
              refine ⟨args, ?_, h'⟩
              rw [hp]
              rfl
            · rw [if_neg hp] at h'; cases h'

/-- What `argOk` means on a dash token: the flag name is not blocklisted
and is allowlisted. -/
theorem argOk_dash_elim {p : String} (hd : pyStartsWith p "-" = true) (h : argOk p = true) :
    _BLOCKED_FLAGS.contains (flagName p) = false ∧ _ALLOWED_FLAGS.contains (flagName p) = true := by
  unfold argOk at h
  rw [if_pos hd] at h
  cases hb : _BLOCKED_FLAGS.contains (flagName p) with
  | true => rw [if_pos hb] at h; cases h
  | false =>
    rw [if_neg (by rw [hb]; exact Bool.false_ne_true)] at h
    cases ha : _ALLOWED_FLAGS.contains (flagName p) with
    | true => exact ⟨rfl, rfl⟩
    | false => rw [if_neg (by rw [ha]; exact Bool.false_ne_true)] at h; cases h

/-- A command that tokenizes with a bad dash token after the command name
is always rejected. -/
theorem validate_false_of_badflag {cmd : String} {parts : List String} {p : String}
    (hs : shlexSplit (pyStrip cmd) = some parts) (hmem : p ∈ parts.tail)
    (hd : pyStartsWith p "-" = true)
    (hbad : _ALLOWED_FLAGS.contains (flagName p) = false ∨
      _BLOCKED_FLAGS.contains (flagName p) = true) :
    validate_command cmd = false := by
  cases hv : validate_command cmd with
  | false => rfl
  | true =>
    exfalso
    rcases validate_true_elim hv with ⟨args, hs', hall⟩
    rw [hs] at hs'
    cases hs'
    have hap : argOk p = true := List.all_eq_true.mp hall p hmem
    rcases argOk_dash_elim hd hap with ⟨hb, ha⟩
    rcases hbad with h | h
    · rw [ha] at h; cases h
    · rw [hb] at h; cases h

/-- A token whose flag name is `-e` starts with a dash. -/
theorem flagName_dash_e {p : String} (h : flagName p = "-e") :
    pyStartsWith p "-" = true := by
  have hd : p.data.takeWhile (fun c => !(c = '=')) = ['-', 'e'] := congrArg String.data h
  have hpre := List.takeWhile_prefix (l := p.data) (fun c => !(c = '='))
  rw [hd] at hpre
  rcases hpre with ⟨t, ht⟩
  unfold pyStartsWith
  rw [List.isPrefixOf_iff_prefix]
  exact ⟨'e' :: t, by rw [← ht]; rfl⟩

/-- Build the dangerous-pattern check of the stripped command from a
single-character dangerous pattern present in the original command. -/
theorem danger_strip_of_char {cmd : String} (pat : String) (c : Char)
    (hpat : pat.data = [c]) (hcw : isPyWs c = false)
    (hmem : pat ∈ _DANGEROUS_PATTERNS)
    (h : containsSubstr cmd pat = true) :
    _DANGEROUS_PATTERNS.any (fun p => containsSubstr (pyStrip cmd) p) = true := by
  rw [List.any_eq_true]
  refine ⟨pat, hmem, ?_⟩
  unfold containsSubstr at h ⊢
  rw [hpat] at h ⊢
  rw [infixOfL_singleton] at h ⊢
  exact mem_stripL h hcw

/-- First failure aborts the validation loop of `main`. -/
theorem validateAllPhase_eq_false {cmds : List String}
    (h : ∃ c ∈ cmds, validate_command c = false) : validateAllPhase cmds = false := by
  induction cmds with
  | nil => rcases h with ⟨c, hc, _⟩; cases hc
  | cons a rest ih =>
    rcases h with ⟨c, hc, hv⟩
    rcases List.mem_cons.mp hc with rfl | hmem
    · unfold validateAllPhase
      rw [hv]
      rfl
    · unfold validateAllPhase
      by_cases hva : validate_command a = true
      · rw [if_pos hva]
        exact ih ⟨c, hmem, hv⟩
      · rw [if_neg hva]

/-- `format_json_with_jq` of an empty batch is empty. -/
theorem format_json_with_jq_nil (av : Bool) (r : String → Option String) :
    format_json_with_jq av r [] = [] := by
  unfold format_json_with_jq
  cases av <;> rfl

/- ----------------------------------------------------------------
   The claims.
   ---------------------------------------------------------------- -/

/-- Counterexample to claim C1: with two validated commands where the
first one's subprocess exits with status 6, the batch loop stops after
the first command (the second is never executed), because the non-zero
status routes through `print_error`, which exits the process. -/
theorem curlpad_C1_counterexample :
    runBatch (fun _ => ⟨"", "curl: (6) could not resolve host", 6⟩)
      ["curl https://a.example", "curl https://b.example"]
      = ⟨["curl https://a.example"], 1⟩ ∧
    "curl https://b.example" ∉
      (runBatch (fun _ => ⟨"", "curl: (6) could not resolve host", 6⟩)
        ["curl https://a.example", "curl https://b.example"]).executed :=
  ⟨by decide, by decide⟩

/-- Claim C1 (amended): a non-zero exit status of an executed command is
reported via `print_error`, which terminates the whole run with exit
status 1 after cleanup; the remaining commands of the batch are NOT
executed. -/
theorem curlpad_C1 (exec : List String → ExecResult) (c : String)
    (rest : List String) (r : ExecResult)
    (hok : run_curl_command exec c = .ok r) (hrc : ¬ r.returncode = 0) :
    runBatch exec (c :: rest) = ⟨[c], 1⟩ := by
  unfold runBatch
  rw [hok]
  show (if r.returncode = 0 then
      (⟨c :: (runBatch exec rest).executed, (runBatch exec rest).exitCode⟩ : BatchResult)
    else ⟨[c], 1⟩) = ⟨[c], 1⟩
  rw [if_neg hrc]

/-- Witness for the amended claim C1 at a concrete failing batch. -/
theorem curlpad_C1_witness :
    run_curl_command (fun _ => ⟨"", "curl: (7) failed to connect", 7⟩)
      "curl https://a.example" = .ok ⟨"", "curl: (7) failed to connect", 7⟩ ∧
    runBatch (fun _ => ⟨"", "curl: (7) failed to connect", 7⟩)
      ["curl https://a.example", "curl https://b.example"]
      = ⟨["curl https://a.example"], 1⟩ :=
  ⟨by decide,
    curlpad_C1 (fun _ => ⟨"", "curl: (7) failed to connect", 7⟩)
      "curl https://a.example" ["curl https://b.example"]
      ⟨"", "curl: (7) failed to connect", 7⟩ (by decide) (by decide)⟩

/-- Whether, after trimming, a string begins with the exact token `curl`
followed by a word boundary (end of string or a non-word character). -/
def startsWithCurlToken (s : String) : Bool :=
  match (pyStrip s).data with
  | 'c' :: 'u' :: 'r' :: 'l' :: rest =>
    match rest with
    | [] => true
    | c :: _ => !(c.isAlphanum || c = '_')
  | _ => false

/-- Counterexample to claim C2: the one-line buffer "curlx foo" yields the
command "curlx foo", which does not begin with the token `curl` followed
by a word boundary — it begins with the longer token `curlx`. -/
theorem curlpad_C2_counterexample :
    extract_commands ["curlx foo"] = ["curlx foo"] ∧
    startsWithCurlToken "curlx foo" = false ∧
    pyStartsWith "curlx foo" "curlx" = true :=
  ⟨by decide, by decide, by decide⟩

/-- Claim C2 (amended): every command produced by `extract_commands`
begins with the four characters `curl` (the code tests
`lstrip().startswith('curl')`), but not necessarily with `curl` as a
whole token: a longer first token such as `curlx` is also possible. -/
theorem curlpad_C2 (lines : List String) :
    ∀ c ∈ extract_commands lines, pyStartsWith c "curl" = true :=
  extract_commands_curl_prefix lines

/-- Witness for the amended claim C2 at a concrete buffer. -/
theorem curlpad_C2_witness :
    "curl -X GET https://h.example" ∈ extract_commands ["curl -X GET https://h.example"] ∧
    pyStartsWith "curl -X GET https://h.example" "curl" = true :=
  ⟨by decide, curlpad_C2 ["curl -X GET https://h.example"]
    "curl -X GET https://h.example" (by decide)⟩

/-- Claim C3: any candidate command containing one of the substrings
';', '|', a backtick, or '$(' anywhere is rejected by `validate_command`,
regardless of any otherwise-valid flags around it. -/
theorem curlpad_C3 (cmd : String)
    (h : containsSubstr cmd ";" = true ∨ containsSubstr cmd "|" = true ∨
      containsSubstr cmd "`" = true ∨ containsSubstr cmd "$(" = true) :
    validate_command cmd = false := by
  apply validate_false_of_danger
  rcases h with h | h | h | h
  · exact danger_strip_of_char ";" ';' rfl (by decide) (by decide) h
  · exact danger_strip_of_char "|" '|' rfl (by decide) (by decide) h
  · exact danger_strip_of_char "`" '`' rfl (by decide) (by decide) h
  · have hd : '$' ∈ cmd.data :=
      mem_of_infixOfL_cons (show infixOfL ('$' :: ['(']) cmd.data = true from h)
    apply danger_strip_of_char "$" '$' rfl (by decide) (by decide)
    show infixOfL ['$'] cmd.data = true
    exact infixOfL_singleton.mpr hd

/-- Witness for claim C3 at a concrete command containing ';'. -/
theorem curlpad_C3_witness :
    containsSubstr "curl https://x.example;id" ";" = true ∧
    validate_command "curl https://x.example;id" = false :=
  ⟨by decide, curlpad_C3 "curl https://x.example;id" (Or.inl (by decide))⟩

/-- Claim C4: `validate_command` accepts only when every token starting
with '-' has a flag name (the part before the first '=') that is in the
allowlist and not in the blocklist; and any command whose token vector
contains a single dash token violating either condition — for instance an
otherwise-valid command with one token replaced by it — is rejected. -/
theorem curlpad_C4 :
    (∀ cmd parts, validate_command cmd = true →
      shlexSplit (pyStrip cmd) = some parts →
      ∀ p ∈ parts.tail, pyStartsWith p "-" = true →
        _ALLOWED_FLAGS.contains (flagName p) = true ∧
          _BLOCKED_FLAGS.contains (flagName p) = false) ∧
    (∀ cmd parts p, shlexSplit (pyStrip cmd) = some parts → p ∈ parts.tail →
      pyStartsWith p "-" = true →
      (_ALLOWED_FLAGS.contains (flagName p) = false ∨
        _BLOCKED_FLAGS.contains (flagName p) = true) →
      validate_command cmd = false) := by
  constructor
  · intro cmd parts hv hs p hmem hd
    rcases validate_true_elim hv with ⟨args, hs', hall⟩
    rw [hs] at hs'
    have hparts : parts = "curl" :: args := by injection hs'
    subst hparts
    have hap : argOk p = true := List.all_eq_true.mp hall p hmem
    rcases argOk_dash_elim hd hap with ⟨hb, ha⟩
    exact ⟨ha, hb⟩
  · intro cmd parts p hs hmem hd hbad
    exact validate_false_of_badflag hs hmem hd hbad

/-- Witness for claim C4: the unknown flag `--trace` makes an otherwise
plausible command rejected. -/
theorem curlpad_C4_witness :
    shlexSplit (pyStrip "curl --trace log https://x.example")
      = some ["curl", "--trace", "log", "https://x.example"] ∧
    validate_command "curl --trace log https://x.example" = false :=
  ⟨by decide, curlpad_C4.2 "curl --trace log https://x.example"
    ["curl", "--trace", "log", "https://x.example"] "--trace"
    (by decide) (by decide) (by decide) (Or.inl (by decide))⟩

/-- Claim C5: whenever any command of the extracted (and jq-formatted)
batch fails validation, the run aborts through `print_error`: exit status
1 after temp-file cleanup, with no command of the batch executed. -/
theorem curlpad_C5 (jqAvailable : Bool) (jqRun : String → Option String)
    (confirm : Bool) (exec : List String → ExecResult) (lines : List String)
    (h : ∃ c ∈ format_json_with_jq jqAvailable jqRun (extract_commands lines),
      validate_command c = false) :
    mainRun jqAvailable jqRun confirm exec lines = ⟨1, true, []⟩ := by
  unfold mainRun
  by_cases hx : extract_commands lines = []
  · exfalso
    rcases h with ⟨c, hc, _⟩
    rw [hx, format_json_with_jq_nil] at hc
    cases hc
  · rw [if_neg hx]
    have hv : validateAllPhase
        (format_json_with_jq jqAvailable jqRun (extract_commands lines)) = false :=
      validateAllPhase_eq_false h
    rw [hv]
    rfl

/-- Witness for claim C5: the blocked flag `-e` aborts the whole run with
nothing executed. -/
theorem curlpad_C5_witness :
    (∃ c ∈ format_json_with_jq false (fun _ => none)
        (extract_commands ["curl -e https://r.example https://x.example"]),
      validate_command c = false) ∧
    mainRun false (fun _ => none) true (fun _ => ⟨"", "", 0⟩)
      ["curl -e https://r.example https://x.example"] = ⟨1, true, []⟩ :=
  ⟨⟨"curl -e https://r.example https://x.example", by decide, by decide⟩,
    curlpad_C5 _ _ _ _ _
      ⟨"curl -e https://r.example https://x.example", by decide, by decide⟩⟩

/-- Claim C6: `validate_command` is total — in the embedding it is a Lean
function `String → Bool` — and on every string whose POSIX word-splitting
fails (e.g. an unbalanced quote) it returns `false` instead of raising. -/
theorem curlpad_C6 (cmd : String) (h : shlexSplit (pyStrip cmd) = none) :
    validate_command cmd = false :=
  validate_false_of_shlex_none h

/-- Witness for claim C6 at a command with an unbalanced double quote. -/
theorem curlpad_C6_witness :
    shlexSplit (pyStrip "curl \"unbalanced") = none ∧
    validate_command "curl \"unbalanced" = false :=
  ⟨by decide, curlpad_C6 _ (by decide)⟩

/-- Claim C7: if jq is unavailable `format_json_with_jq` returns its input
unchanged; the output always has the same length and order as the input
(it is an index-preserving map); and a command whose matched literal jq
fails on appears in the output unchanged. -/
theorem curlpad_C7 :
    (∀ r cmds, format_json_with_jq false r cmds = cmds) ∧
    (∀ av r cmds, (format_json_with_jq av r cmds).length = cmds.length) ∧
    (∀ av r cmds i (h : i < cmds.length) lit,
      extractLiteral (cmds.get ⟨i, h⟩) = some lit → r lit = none →
      (format_json_with_jq av r cmds)[i]? = some (cmds.get ⟨i, h⟩)) := by
  refine ⟨fun r cmds => rfl, ?_, ?_⟩
  · intro av r cmds
    unfold format_json_with_jq
    cases av
    · rfl
    · show (cmds.map (formatOneCommand r)).length = cmds.length
      exact List.length_map _ _
  · intro av r cmds i h lit hlit hr
    have hone : formatOneCommand r (cmds.get ⟨i, h⟩) = cmds.get ⟨i, h⟩ := by
      unfold formatOneCommand
      unfold extractLiteral at hlit
      cases hg : jqGroups (cmds.get ⟨i, h⟩) with
      | none => rfl
      | some g =>
        rw [hg] at hlit
        obtain ⟨before, jsonStr, after⟩ := g
        have hjl : jsonStr = lit := by simpa using hlit
        rw [hjl]
        show (match r lit with
          | none => cmds.get ⟨i, h⟩
          | some out => before ++ pyStrip out ++ after) = cmds.get ⟨i, h⟩
        rw [hr]
    cases av
    · show cmds[i]? = some (cmds.get ⟨i, h⟩)
      rw [List.getElem?_eq_getElem h]
      rfl
    · show (cmds.map (formatOneCommand r))[i]? = some (cmds.get ⟨i, h⟩)
      rw [List.getElem?_map, List.getElem?_eq_getElem h]
      show some (formatOneCommand r (cmds.get ⟨i, h⟩)) = some (cmds.get ⟨i, h⟩)
      rw [hone]

/-- Witness for claim C7: a failing jq leaves the matched command
unchanged in place. -/
theorem curlpad_C7_witness :
    extractLiteral "curl -d \"\x7ba:1\x7d\"" = some "\x7ba:1\x7d" ∧
    (format_json_with_jq true (fun _ => none) ["curl -d \"\x7ba:1\x7d\""])[0]?
      = some "curl -d \"\x7ba:1\x7d\"" :=
  ⟨by decide,
    curlpad_C7.2.2 true (fun _ => none) ["curl -d \"\x7ba:1\x7d\""] 0 (by decide)
      "\x7ba:1\x7d" (by decide) rfl⟩

/-- Claim C8: the buffer of 'curl -X POST \' followed by '  "url"'
coalesces to exactly one command, 'curl -X POST "url"': trimmed fragments
joined with single spaces and the trailing backslash removed. -/
theorem curlpad_C8 :
    extract_commands ["curl -X POST \\", "  \"url\""] = ["curl -X POST \"url\""] := by
  decide

/-- Claim C9: a buffer whose lines are all blank or comments extracts to
the empty sequence; more generally the extraction only ever sees the
`keepLine`-filtered buffer, so blank and comment lines contribute no
fragment to any command. -/
theorem curlpad_C9 :
    (∀ lines : List String,
      (∀ l ∈ lines, pyStrip l = "" ∨ pyStartsWith (pyLstrip l) "#" = true) →
      extract_commands lines = []) ∧
    (∀ lines : List String,
      extract_commands lines = extract_commands (lines.filter keepLine)) := by
  constructor
  · intro lines h
    unfold extract_commands
    have hf : lines.filter keepLine = [] := by
      rw [List.filter_eq_nil_iff]
      intro a ha
      rcases h a ha with h1 | h1
      · unfold keepLine
        rw [h1]
        simp
      · unfold keepLine
        rw [h1]
        simp
    rw [hf]
    rfl
  · intro lines
    unfold extract_commands
    rw [List.filter_filter]
    have heq : (fun a => keepLine a && keepLine a) = keepLine :=
      funext fun a => Bool.and_self _
    rw [heq]

/-- Witness for claim C9 at a concrete blank/comment buffer. -/
theorem curlpad_C9_witness :
    (∀ l ∈ ["", "# curl comment", "   "],
      pyStrip l = "" ∨ pyStartsWith (pyLstrip l) "#" = true) ∧
    extract_commands ["", "# curl comment", "   "] = [] :=
  ⟨by decide, curlpad_C9.1 ["", "# curl comment", "   "] (by decide)⟩

/-- Claim C10: '-e' appears in both the blocklist and the allowlist;
because the blocklist is checked first, every command with a token whose
flag name is '-e' is rejected, while the long form '--referer' is
accepted in an otherwise-valid command. -/
theorem curlpad_C10 :
    _BLOCKED_FLAGS.contains "-e" = true ∧
    _ALLOWED_FLAGS.contains "-e" = true ∧
    (∀ cmd parts p, shlexSplit (pyStrip cmd) = some parts → p ∈ parts →
      flagName p = "-e" → validate_command cmd = false) ∧
    validate_command "curl --referer https://from.example https://to.example" = true := by
  refine ⟨by decide, by decide, ?_, by decide⟩
  intro cmd parts p hs hmem hfe
  have hd : pyStartsWith p "-" = true := flagName_dash_e hfe
  cases hv : validate_command cmd with
  | false => rfl
  | true =>
    exfalso
    rcases validate_true_elim hv with ⟨args, hs', hall⟩
    rw [hs] at hs'
    have hparts : parts = "curl" :: args := by injection hs'
    subst hparts
    rcases List.mem_cons.mp hmem with rfl | hmem'
    · exact absurd hfe (by decide)
    · have hap : argOk p = true := List.all_eq_true.mp hall p hmem'
      rcases argOk_dash_elim hd hap with ⟨hb, _⟩
      rw [hfe] at hb
      exact absurd hb (by decide)

/-- Witness for claim C10 at a concrete command using '-e'. -/
theorem curlpad_C10_witness :
    shlexSplit (pyStrip "curl -e https://r.example https://x.example")
      = some ["curl", "-e", "https://r.example", "https://x.example"] ∧
    validate_command "curl -e https://r.example https://x.example" = false :=
  ⟨by decide,
    curlpad_C10.2.2.1 "curl -e https://r.example https://x.example"
      ["curl", "-e", "https://r.example", "https://x.example"] "-e"
      (by decide) (by decide) (by decide)⟩
